import Mathlib

/-!
go-melcloud: the authenticated request lifecycle

A shallow embedding of `melcloud.go` (package `melcloud`): login
(`AuthenticateWithLogger`), the authenticated request primitive (`makeRequest`,
`makeGet`) and the two endpoint wrappers (`GetDeviceInformation`,
`GetDeviceList`).

Conventions of the embedding

* Go `string`s that the program only stores, compares and passes on (tokens,
  credentials, header names and values, messages) are Lean `String`s.  Go
  strings whose bytes the program inspects (URLs, query parameters) are byte
  lists, `Bytes`.
* A Go `(T, error)` result is `Except GoError T`.
* Pointers that are mutated in place (`r *MelcloudRequestor`, `req *http.Request`)
  become explicit state passing: the functions return the final value.
* The outside world (the HTTP transport, and whatever a stored `reauthenticate`
  closure does) is an oracle that may answer differently at every call: it is a
  function of the `History`, the list of interactions made so far.
* Logging (`zerolog`) has no influence on any value and is left out.
-/

namespace Melcloud

set_option maxRecDepth 100000

/-! ## Go values -/

/-- A byte string: the contents of a Go `string` whose bytes matter. -/
abbrev Bytes := List (Fin 256)

/-- The bytes (UTF-8) of a string literal of the program. -/
def lit (s : String) : Bytes :=
  (s.toList.flatMap String.utf8EncodeChar).map (fun b => b.val)

deriving instance DecidableEq for Except

/-- Go `error` values.  `external` is an error made outside this package (the
HTTP transport, the JSON decoder); `errorf msg` is `fmt.Errorf` without `%w`,
already formatted; `wrap pre inner` is `fmt.Errorf(pre + "%w", inner)`. -/
inductive GoError where
  | external (msg : String)
  | errorf (msg : String)
  | wrap (pre : String) (inner : GoError)
  deriving DecidableEq, Repr

/-- The method `Error()`: the message of an error. -/
def GoError.Error : GoError → String
  | .external msg => msg
  | .errorf msg => msg
  | .wrap pre inner => pre ++ inner.Error

/-- The function `errors.Unwrap`. -/
def GoError.Unwrap : GoError → Option GoError
  | .wrap _ inner => some inner
  | _ => none

/-- Assignment `m[k] = v` on a Go map, kept as an association list with
distinct keys. -/
def mapSet {κ ν : Type} [DecidableEq κ] : List (κ × ν) → κ → ν → List (κ × ν)
  | [], k, v => [(k, v)]
  | (k', v') :: m, k, v => if k' = k then (k, v) :: m else (k', v') :: mapSet m k v

/-- Lookup `m[k]` on a Go map of slices: `nil` (the empty slice) when the key is
absent. -/
def mapGet {κ ν : Type} [DecidableEq κ] : List (κ × List ν) → κ → List ν
  | [], _ => []
  | (k', v') :: m, k => if k' = k then v' else mapGet m k

/-! ## net/textproto, net/http: headers -/

/-- The table `isTokenTable` behind `validHeaderFieldByte`: the bytes allowed in
a header field name (RFC 7230 `token`). -/
def validHeaderFieldByte (c : Char) : Bool :=
  c.isAlphanum || c ∈ ['!', '#', '$', '%', '&', Char.ofNat 39, '*', '+', '-', '.', '^', '_', Char.ofNat 96, '|', '~']

/-- The inner loop of `canonicalMIMEHeaderKey`: upper-case the first letter and
every letter after a hyphen, lower-case the others. -/
def canonicalLoop : Bool → List Char → List Char
  | _, [] => []
  | upper, c :: cs =>
    let c' := if upper && c.isLower then c.toUpper
              else if !upper && c.isUpper then c.toLower else c
    c' :: canonicalLoop (c' == '-') cs

/-- The function `textproto.CanonicalMIMEHeaderKey`: a key made of header field
bytes only is canonicalised, any other key is returned unchanged. -/
def CanonicalMIMEHeaderKey (s : String) : String :=
  if s.toList.all validHeaderFieldByte then String.mk (canonicalLoop true s.toList) else s

/-- The type `http.Header`, `map[string][]string`. -/
abbrev Header := List (String × List String)

/-- The method `Header.Values`: all values stored under the canonical key. -/
def Header.Values (h : Header) (key : String) : List String :=
  mapGet h (CanonicalMIMEHeaderKey key)

/-- The method `Header.Add`: `h[key] = append(h[key], value)` on the canonical key. -/
def Header.Add (h : Header) (key value : String) : Header :=
  let key := CanonicalMIMEHeaderKey key
  mapSet h key (mapGet h key ++ [value])

/-! ## net/url -/

/-- A byte constant written as a character, as in Go's `'%'`. -/
def ch (c : Char) : Fin 256 := Fin.ofNat c.toNat

/-- The type `encoding` of net/url: which part of a URL is being escaped. -/
inductive encoding where
  | encodePath | encodePathSegment | encodeHost | encodeZone
  | encodeUserPassword | encodeQueryComponent | encodeFragment
  deriving DecidableEq, Repr

open encoding

/-- The function `shouldEscape` of net/url: must byte `c` be escaped in the
part of the URL given by `mode`? -/
def shouldEscape (c : Fin 256) (mode : encoding) : Bool :=
  if (ch 'a' ≤ c ∧ c ≤ ch 'z') ∨ (ch 'A' ≤ c ∧ c ≤ ch 'Z') ∨ (ch '0' ≤ c ∧ c ≤ ch '9') then false
  else if (mode = encodeHost ∨ mode = encodeZone) ∧
      c ∈ [ch '!', ch '$', ch '&', ch (Char.ofNat 39), ch '(', ch ')', ch '*', ch '+', ch ',',
           ch ';', ch '=', ch ':', ch '[', ch ']', ch '<', ch '>', ch '"'] then false
  else if c ∈ [ch '-', ch '_', ch '.', ch '~'] then false
  else if c ∈ [ch '$', ch '&', ch '+', ch ',', ch '/', ch ':', ch ';', ch '=', ch '?', ch '@'] ∧
      mode ∈ [encodePath, encodePathSegment, encodeUserPassword, encodeQueryComponent,
              encodeFragment] then
    match mode with
    | encodePath => c = ch '?'
    | encodePathSegment => c = ch '/' || c = ch ';' || c = ch ',' || c = ch '?'
    | encodeUserPassword => c = ch '@' || c = ch '/' || c = ch '?' || c = ch ':'
    | encodeQueryComponent => true
    | _ => false
  else if mode = encodeFragment ∧ c ∈ [ch '!', ch '(', ch ')', ch '*'] then false
  else true

/-- The digit table `upperhex = "0123456789ABCDEF"`, indexed by a nibble. -/
def upperhex (d : Nat) : Fin 256 :=
  if d < 10 then Fin.ofNat (48 + d) else Fin.ofNat (55 + d)

/-- The function `ishex` of net/url. -/
def ishex (c : Fin 256) : Bool :=
  (ch '0' ≤ c ∧ c ≤ ch '9') ∨ (ch 'a' ≤ c ∧ c ≤ ch 'f') ∨ (ch 'A' ≤ c ∧ c ≤ ch 'F')

/-- The function `unhex` of net/url: the value of a hexadecimal digit. -/
def unhex (c : Fin 256) : Nat :=
  if ch '0' ≤ c ∧ c ≤ ch '9' then c.val - 48
  else if ch 'a' ≤ c ∧ c ≤ ch 'f' then c.val - 97 + 10
  else if ch 'A' ≤ c ∧ c ≤ ch 'F' then c.val - 65 + 10
  else 0

/-- The function `escape` of net/url: a byte that `shouldEscape` is written as
`%XX` (upper-case hexadecimal), except that a space in a query component is
written `+`; every other byte is copied. -/
def escape : Bytes → encoding → Bytes
  | [], _ => []
  | c :: s, mode =>
    if c = ch ' ' ∧ mode = encodeQueryComponent then ch '+' :: escape s mode
    else if shouldEscape c mode then
      ch '%' :: upperhex (c.val / 16) :: upperhex (c.val % 16) :: escape s mode
    else c :: escape s mode

/-- The function `unescape` of net/url: `%XX` becomes the byte `XX`, and in a
query component `+` becomes a space.  It fails with an `EscapeError` at the
first `%` not followed by two hexadecimal digits, and in a host at a byte that
a host cannot hold. -/
def unescape : Bytes → encoding → Except GoError Bytes
  | [], _ => .ok []
  | c :: s, mode =>
    if c = ch '%' then
      match s with
      | a :: b :: rest =>
        if ishex a && ishex b then
          if mode = encodeHost ∧ unhex a < 8 ∧ (a, b) ≠ (ch '2', ch '5') then
            .error (.external "invalid URL escape")
          else if mode = encodeZone ∧ (a, b) ≠ (ch '2', ch '5') ∧
              unhex a * 16 + unhex b ≠ 32 ∧
              shouldEscape (Fin.ofNat (unhex a * 16 + unhex b)) encodeHost then
            .error (.external "invalid URL escape")
          else
            match unescape rest mode with
            | .ok t => .ok (Fin.ofNat (unhex a * 16 + unhex b) :: t)
            | .error e => .error e
        else .error (.external "invalid URL escape")
      | _ => .error (.external "invalid URL escape")
    else if c = ch '+' then
      match unescape s mode with
      | .ok t => .ok ((if mode = encodeQueryComponent then ch ' ' else ch '+') :: t)
      | .error e => .error e
    else if (mode = encodeHost ∨ mode = encodeZone) ∧ c.val < 128 ∧ shouldEscape c encodeHost then
      .error (.external "invalid character in host name")
    else
      match unescape s mode with
      | .ok t => .ok (c :: t)
      | .error e => .error e

/-- The function `url.QueryEscape`. -/
def QueryEscape (s : Bytes) : Bytes := escape s encodeQueryComponent

/-- The function `url.QueryUnescape`. -/
def QueryUnescape (s : Bytes) : Except GoError Bytes := unescape s encodeQueryComponent

/-- The function `strings.Cut` for a one-byte separator: the text before the
first separator, the text after it, and whether a separator was found. -/
def Cut : Bytes → Fin 256 → Bytes × Bytes × Bool
  | [], _ => ([], [], false)
  | c :: s, sep =>
    if c = sep then ([], s, true)
    else ((c :: (Cut s sep).1), (Cut s sep).2.1, (Cut s sep).2.2)

/-- The type `url.Values`, `map[string][]string`. -/
abbrev Values := List (Bytes × List Bytes)

/-- The method `Values.Set`: `v[key] = []string{value}`. -/
def Values.Set (v : Values) (key value : Bytes) : Values := mapSet v key [value]

/-- The method `Values.Get`: the first value under the key, or the empty string. -/
def Values.Get (v : Values) (key : Bytes) : Bytes := (mapGet v key).headD []

/-- The order `<` of Go strings: lexicographic on bytes. -/
def bytesLess : Bytes → Bytes → Bool
  | [], [] => false
  | [], _ :: _ => true
  | _ :: _, [] => false
  | a :: s, b :: t => a < b || (a = b && bytesLess s t)

/-- Insertion of a key into a sorted list of keys. -/
def insertKey (k : Bytes) : List Bytes → List Bytes
  | [] => [k]
  | k' :: ks => if bytesLess k' k then k' :: insertKey k ks else k :: k' :: ks

/-- The call `slices.Sort(keys)` on the (distinct) keys of a map. -/
def sortKeys (ks : List Bytes) : List Bytes := ks.foldr insertKey []

/-- The method `Values.Encode`: the pairs `key=value`, both query-escaped,
joined by `&`, in the order of the sorted keys. -/
def Values.Encode (v : Values) : Bytes :=
  (sortKeys (v.map Prod.fst)).foldl
    (fun buf k =>
      (mapGet v k).foldl
        (fun buf val =>
          (if buf ≠ [] then buf ++ [ch '&'] else buf) ++ QueryEscape k ++ [ch '='] ++ QueryEscape val)
        buf)
    []

/-- The function `parseQuery` of net/url, the loop `for query != ""`; `err` is
the named result, the first error met (a semicolon error overwrites it). -/
def parseQuery (m : Values) (err : Option GoError) (query : Bytes) : Values × Option GoError :=
  match query with
  | [] => (m, err)
  | c :: q =>
    let key := (Cut (c :: q) (ch '&')).1
    let rest := (Cut (c :: q) (ch '&')).2.1
    have : rest.length < (c :: q).length := by
      have hle : ∀ s : Bytes, (Cut s (ch '&')).2.1.length ≤ s.length := by
        intro s
        induction s with
        | nil => simp [Cut]
        | cons a s ih =>
          unfold Cut
          split
          · simp
          · simp only [List.length_cons]; omega
      show (Cut (c :: q) (ch '&')).2.1.length < (c :: q).length
      unfold Cut
      split
      · simp
      · have := hle q
        simp only [List.length_cons]; omega
    if ch ';' ∈ key then
      parseQuery m (some (.errorf "invalid semicolon separator in query")) rest
    else if key = [] then parseQuery m err rest
    else
      let value := (Cut key (ch '=')).2.1
      match QueryUnescape (Cut key (ch '=')).1 with
      | .error err1 => parseQuery m (if err = none then some err1 else err) rest
      | .ok key =>
        match QueryUnescape value with
        | .error err1 => parseQuery m (if err = none then some err1 else err) rest
        | .ok value => parseQuery (mapSet m key (mapGet m key ++ [value])) err rest
termination_by query.length

/-- The function `url.ParseQuery`: the values parsed and the first error. -/
def ParseQuery (query : Bytes) : Values × Option GoError := parseQuery [] none query

/-- The type `url.URL`, with the fields that are not zero for the URLs of this
program: an absolute `scheme://host/path?query` (`Opaque`, `User`, `RawPath`,
`ForceQuery` and `Fragment` stay zero). -/
structure URL where
  Scheme : Bytes
  Host : Bytes
  Path : Bytes
  RawQuery : Bytes
  deriving DecidableEq, Repr

/-- The method `URL.Query`: `ParseQuery(u.RawQuery)`, the error dropped. -/
def URL.Query (u : URL) : Values := (ParseQuery u.RawQuery).1

/-- The loop of `getScheme`: `i` is the index of the byte looked at, `s` the
bytes from index `i` on. -/
def getSchemeLoop (rawURL : Bytes) : Nat → Bytes → Except GoError (Bytes × Bytes)
  | _, [] => .ok ([], rawURL)
  | i, c :: s =>
    if (ch 'a' ≤ c ∧ c ≤ ch 'z') ∨ (ch 'A' ≤ c ∧ c ≤ ch 'Z') then getSchemeLoop rawURL (i + 1) s
    else if (ch '0' ≤ c ∧ c ≤ ch '9') ∨ c = ch '+' ∨ c = ch '-' ∨ c = ch '.' then
      if i = 0 then .ok ([], rawURL) else getSchemeLoop rawURL (i + 1) s
    else if c = ch ':' then
      if i = 0 then .error (.external "missing protocol scheme") else .ok (rawURL.take i, s)
    else .ok ([], rawURL)

/-- The function `getScheme` of net/url: splits `scheme:rest`. -/
def getScheme (rawURL : Bytes) : Except GoError (Bytes × Bytes) := getSchemeLoop rawURL 0 rawURL

/-- The function `strings.ToLower` on ASCII text. -/
def ToLower (s : Bytes) : Bytes :=
  s.map (fun c => if ch 'A' ≤ c ∧ c ≤ ch 'Z' then Fin.ofNat (c.val + 32) else c)

/-- The function `stringContainsCTLByte` of net/url. -/
def stringContainsCTLByte (s : Bytes) : Bool := s.any (fun b => b.val < 32 || b.val = 127)

/-- The function `url.Parse`, for the URLs that `URL` can hold: an absolute
`scheme://host/path?query` whose host and path need no escaping.  Every other
input is answered with the error `outside the model`. -/
def Parse (rawURL : Bytes) : Except GoError URL :=
  let u := (Cut rawURL (ch '#')).1
  let frag := (Cut rawURL (ch '#')).2.1
  if stringContainsCTLByte u then .error (.external "net/url: invalid control character in URL")
  else
    match getScheme u with
    | .error e => .error e
    | .ok (scheme, rest) =>
      let rawQuery := (Cut rest (ch '?')).2.1
      let hasQuery := (Cut rest (ch '?')).2.2
      let rest := (Cut rest (ch '?')).1
      let authority := (rest.drop 2).takeWhile (fun c => c ≠ ch '/')
      let path := (rest.drop 2).dropWhile (fun c => c ≠ ch '/')
      if frag = [] ∧ scheme ≠ [] ∧ ¬ (hasQuery ∧ rawQuery = []) ∧ rest.take 2 = [ch '/', ch '/'] ∧
          authority ≠ [] ∧ (∀ c ∈ authority, c ∉ [ch '@', ch ':', ch '[', ch ']', ch '%'] ∧
            ¬ (c.val < 128 ∧ shouldEscape c encodeHost)) ∧
          ch '%' ∉ path ∧ escape path encodePath = path then
        .ok { Scheme := ToLower scheme, Host := authority, Path := path, RawQuery := rawQuery }
      else .error (.external "outside the model")

/-- The method `URL.String`, on the fields that `URL` holds. -/
def URL.String (u : URL) : Bytes :=
  let buf : Bytes := if u.Scheme ≠ [] then u.Scheme ++ [ch ':'] else []
  let buf := if u.Scheme ≠ [] ∨ u.Host ≠ [] then
      (if u.Host ≠ [] ∨ u.Path ≠ [] then buf ++ [ch '/', ch '/'] else buf) ++
        (if u.Host ≠ [] then escape u.Host encodeHost else [])
    else buf
  let path := if u.Path = [ch '*'] then [ch '*'] else escape u.Path encodePath
  let buf := if path ≠ [] ∧ path.head? ≠ some (ch '/') ∧ u.Host ≠ [] then buf ++ [ch '/'] else buf
  let buf := if buf = [] ∧ ch ':' ∈ (Cut path (ch '/')).1 then buf ++ [ch '.', ch '/'] else buf
  let buf := buf ++ path
  if u.RawQuery ≠ [] then buf ++ [ch '?'] ++ u.RawQuery else buf

/-! ## net/http: requests, responses and the transport -/

/-- The type `http.Request`: method, URL and header (a GET has no body). -/
structure Request where
  Method : String
  URL : URL
  Header : Header
  deriving DecidableEq, Repr

/-- The type `http.Response`: the status code and the body stream. -/
structure Response where
  StatusCode : Int
  Body : String
  deriving DecidableEq, Repr

/-- The constant `http.StatusUnauthorized`. -/
def StatusUnauthorized : Int := 401

/-- The function `validMethod` of net/http: a non-empty token. -/
def validMethod (method : String) : Bool :=
  method.length > 0 && method.toList.all validHeaderFieldByte

/-- The function `http.NewRequest` with a nil body: checks the method, parses
the URL and starts with an empty header. -/
def NewRequest (method : String) (url : Bytes) : Except GoError Request :=
  let method := if method = "" then "GET" else method
  if !validMethod method then .error (.external "net/http: invalid method")
  else
    match Parse url with
    | .error err => .error err
    | .ok u => .ok { Method := method, URL := u, Header := [] }

/-- One interaction of `makeRequest` with the outside world, with its outcome:
a request handed to the transport (`r.client.Do(req)`, the request as it was at
that moment), or a call of the stored closure (`r.reauthenticate()`). -/
inductive Event where
  | send (req : Request) (res : Except GoError Response)
  | reauth (res : Except GoError String)
  deriving DecidableEq, Repr

/-- The interactions made so far, oldest first. -/
abbrev History := List Event

/-- The type `http.Client`, the transport.  What it answers may depend on
everything that happened before, so each method is a function of the history. -/
structure Client where
  Do : History → Request → Except GoError Response
  Post : History → Bytes → String → String → Except GoError Response

/-! ## melcloud.go -/

/-- The constant `loginUrl`. -/
def loginUrl : Bytes := lit "https://app.melcloud.com/Mitsubishi.Wifi.Client/Login/ClientLogin"

/-- The constant `deviceInfoUrl`. -/
def deviceInfoUrl : Bytes := lit "https://app.melcloud.com/Mitsubishi.Wifi.Client/Device/Get"

/-- The constant `deviceListUrl`. -/
def deviceListUrl : Bytes := lit "https://app.melcloud.com/Mitsubishi.Wifi.Client/User/ListDevices"

/-- The struct `MelcloudRequestor` (the embedded logger left out).  The closure
`reauthenticate func() (string, error)` is a function of the history, as it
talks to the outside world. -/
structure MelcloudRequestor where
  client : Client
  contextKey : String
  reauthenticate : History → Except GoError String

/-- Modelled from the spec: the struct `loginRequest`, declared outside
`melcloud.go`; its fields are those of the literal built in
`AuthenticateWithLogger` and of the login body of the spec,
`{appVersion, captchaResponse: null, email, password, language: 19, persist: true}`. -/
structure loginRequest where
  AppVersion : String
  CaptchaResponse : Option String
  Email : String
  Password : String
  Language : Int
  Persist : Bool
  deriving DecidableEq, Repr

/-- Modelled from the spec: the struct inside `loginResponse.LoginData`,
declared outside `melcloud.go`: `loginData: {contextKey: string, ...}`. -/
structure loginData where
  ContextKey : String
  deriving DecidableEq, Repr

/-- Modelled from the spec: the struct `loginResponse`, declared outside
`melcloud.go`: `{errorId: int|null, loginData: {contextKey: string, ...}}`;
`ErrorId` is a pointer (`nil` is `none`), as the source tests it against `nil`
and dereferences it. -/
structure loginResponse where
  ErrorId : Option Int
  LoginData : loginData
  deriving DecidableEq, Repr

/-- The zero value `loginResponse{}`. -/
def loginResponse.zero : loginResponse := { ErrorId := none, LoginData := { ContextKey := "" } }

/-- What `AuthenticateWithLogger` uses from outside the package:
`http.DefaultClient`, `json.Marshal` on a `loginRequest` (the program drops its
error) and `json.NewDecoder(body).Decode(&response)`, which fills a
`loginResponse` that the caller initialised. -/
structure Env where
  DefaultClient : Client
  jsonMarshal : loginRequest → String
  jsonDecode : String → loginResponse → Except GoError loginResponse

/-- The verb `%v` of package fmt on an `int`: decimal, with a minus sign. -/
def formatInt (n : Int) : String := toString n

/-- The literal `loginRequest{...}` that `AuthenticateWithLogger` builds (lines
39-46). -/
def newLoginRequest (email password : String) : loginRequest :=
  { AppVersion := "1.21.6.0"
    CaptchaResponse := none
    Email := email
    Password := password
    Language := 19
    Persist := true }

/-- Lines 35-72 of `AuthenticateWithLogger`: build the login request, post it,
decode the answer and reject a non-nil `ErrorId`.  The status code of the
answer is only logged. -/
def loginRoundTrip (env : Env) (email password : String) (h : History) :
    Except GoError loginResponse :=
  let client := env.DefaultClient
  let request := newLoginRequest email password
  let serializedRequest := env.jsonMarshal request
  match client.Post h loginUrl "application/json" serializedRequest with
  | .error err => .error (.wrap "Unable to authenticate with MELCloud: " err)
  | .ok rawResponse =>
    match env.jsonDecode rawResponse.Body loginResponse.zero with
    | .error err => .error (.wrap "Unable to decode MELCloud login response: " err)
    | .ok response =>
      match response.ErrorId with
      | some errorId =>
        .error (.errorf ("Unable to sign in to MELCloud, maybe your credentials are incorrect? (err: "
          ++ formatInt errorId ++ ")"))
      | none => .ok response

/-- The function `AuthenticateWithLogger`.  The closure it stores calls
`AuthenticateWithLogger` again and keeps the `contextKey` of the result; as a
Lean function cannot call itself from inside the closure it returns, the
closure runs `loginRoundTrip`, the part of the body that decides that
`contextKey`.  Theorem `reauthenticate_calls_AuthenticateWithLogger` shows that
this is the closure of the source. -/
def AuthenticateWithLogger (env : Env) (email password : String) (h : History) :
    Except GoError MelcloudRequestor :=
  match loginRoundTrip env email password h with
  | .error err => .error err
  | .ok response =>
    .ok { client := env.DefaultClient
          contextKey := response.LoginData.ContextKey
          reauthenticate := fun h' =>
            match loginRoundTrip env email password h' with
            | .error err => .error (.wrap "Reauthentication failed: " err)
            | .ok response' => .ok response'.LoginData.ContextKey }

/-- The method `makeRequest`.  `r` and `req` are pointers in the source: the
result holds their final values, with the history.  The recursion of the source
is unbounded; `fuel` bounds the number of nested calls, and `none` means that
the fuel ran out before the call returned.  `res.Body.Close()` and the log
line of the 401 branch act on nothing that the model holds. -/
def makeRequest : Nat → MelcloudRequestor → Request → History →
    Option (Except GoError Response × MelcloudRequestor × Request × History)
  | 0, _, _, _ => none
  | fuel + 1, r, req, h =>
    let req := { req with Header := req.Header.Add "X-MitsContextKey" r.contextKey }
    let req := { req with Header := req.Header.Add "Accept" "application/json" }
    match r.client.Do h req with
    | .error err =>
      some (.error (.wrap "MELCloud request failed: " err), r, req, h ++ [.send req (.error err)])
    | .ok res =>
      let h := h ++ [.send req (.ok res)]
      if res.StatusCode = StatusUnauthorized then
        match r.reauthenticate h with
        | .error err => some (.error err, r, req, h ++ [.reauth (.error err)])
        | .ok contextKey =>
          makeRequest fuel { r with contextKey := contextKey } req (h ++ [.reauth (.ok contextKey)])
      else some (.ok res, r, req, h)

/-- The method `makeGet`: the body of the response, or the wrapped error. -/
def makeGet (fuel : Nat) (r : MelcloudRequestor) (u : URL) (h : History) :
    Option (Except GoError String × MelcloudRequestor × History) :=
  match NewRequest "GET" u.String with
  | .error err => some (.error (.wrap "Unable to query MELCloud: " err), r, h)
  | .ok req =>
    match makeRequest fuel r req h with
    | none => none
    | some (.error err, r', _, h') => some (.error (.wrap "Unable to query MELCloud: " err), r', h')
    | some (.ok res, r', _, h') => some (.ok res.Body, r', h')

/-- Lines 90-98 of `GetDeviceInformation`: the URL of the device-info query.
An error stands for the `panic(err)` of the source. -/
def deviceInformationURL (DeviceId BuildingId : Bytes) : Except GoError URL :=
  match Parse deviceInfoUrl with
  | .error err => .error err
  | .ok url =>
    let q := url.Query
    let q := q.Set (lit "id") DeviceId
    let q := q.Set (lit "buildingID") BuildingId
    .ok { url with RawQuery := q.Encode }

/-- The method `GetDeviceInformation`. -/
def GetDeviceInformation (fuel : Nat) (r : MelcloudRequestor) (DeviceId BuildingId : Bytes)
    (h : History) : Option (Except GoError String × MelcloudRequestor × History) :=
  match deviceInformationURL DeviceId BuildingId with
  | .error err => some (.error err, r, h)
  | .ok url => makeGet fuel r url h

/-- The method `GetDeviceList`. -/
def GetDeviceList (fuel : Nat) (r : MelcloudRequestor) (h : History) :
    Option (Except GoError String × MelcloudRequestor × History) :=
  match Parse deviceListUrl with
  | .error err => some (.error err, r, h)
  | .ok url => makeGet fuel r url h

/-! ## Reading a history -/

/-- The requests handed to the transport, in order, each with its outcome. -/
def sends : History → List (Request × Except GoError Response)
  | [] => []
  | .send req res :: h => (req, res) :: sends h
  | .reauth _ :: h => sends h

/-- The outcomes of the calls of `reauthenticate`, in order. -/
def reauths : History → List (Except GoError String)
  | [] => []
  | .send _ _ :: h => reauths h
  | .reauth res :: h => res :: reauths h

/-- The number of responses with status 401 among the sends of a history. -/
def unauthorized : History → Nat
  | [] => 0
  | .send _ (.ok res) :: h => (if res.StatusCode = StatusUnauthorized then 1 else 0) + unauthorized h
  | _ :: h => unauthorized h

/-- The header that `makeRequest` sets up before a send: the two `Header.Add`
calls of lines 145-146 for a session whose token is `key`. -/
def prepared (key : String) (req : Request) : Request :=
  { req with Header := (req.Header.Add "X-MitsContextKey" key).Add "Accept" "application/json" }

/-- Where a call of `makeRequest` stands between two sends: the session's
`contextKey`, the request (with the headers added so far) and the history. -/
structure Stage where
  key : String
  req : Request
  h : History

/-- The stage reached after `i` cycles "send answered 401, then a successful
reauthentication", when cycle `j` got the response `resps j` and the token
`toks j`: each cycle sends the prepared request (lines 145-148), records the
send and the reauthentication, and stores the new token (line 161). -/
def afterCycles (resps : Nat → Response) (toks : Nat → String) (key : String) (req : Request)
    (h : History) : Nat → Stage
  | 0 => { key := key, req := req, h := h }
  | i + 1 =>
    let s := afterCycles resps toks key req h i
    { key := toks i
      req := prepared s.key s.req
      h := s.h ++ [.send (prepared s.key s.req) (.ok (resps i)), .reauth (.ok (toks i))] }

/-- The request that the send number `i` (counted from 0) hands to the
transport, after `i` such cycles. -/
def sentAt (resps : Nat → Response) (toks : Nat → String) (key : String) (req : Request)
    (h : History) (i : Nat) : Request :=
  prepared (afterCycles resps toks key req h i).key (afterCycles resps toks key req h i).req

/-! ## Concrete transports and sessions, for the examples -/

/-- A transport that answers the first `k` sends with 401 and every later send
with 200; its login endpoint is down. -/
def expiredFor (k : Nat) : Client :=
  { Do := fun h _ =>
      if (sends h).length < k then .ok { StatusCode := 401, Body := "expired" }
      else .ok { StatusCode := 200, Body := "devices" }
    Post := fun _ _ _ _ => .error (.external "connection refused") }

/-- A transport that answers every send with 401. -/
def alwaysExpired : Client :=
  { Do := fun _ _ => .ok { StatusCode := 401, Body := "expired" }
    Post := fun _ _ _ _ => .error (.external "connection refused") }

/-- A transport whose connection fails on every call. -/
def unreachable : Client :=
  { Do := fun _ _ => .error (.external "connection refused")
    Post := fun _ _ _ _ => .error (.external "connection refused") }

/-- A transport that answers every send with 404. -/
def notFound : Client :=
  { Do := fun _ _ => .ok { StatusCode := 404, Body := "no such device" }
    Post := fun _ _ _ _ => .error (.external "connection refused") }

/-- A transport that checks the token: it answers 200 when the request carries
the token `new-1` among its `X-MitsContextKey` values, and 401 otherwise. -/
def checksToken : Client :=
  { Do := fun _ q =>
      if "new-1" ∈ q.Header.Values "X-MitsContextKey" then .ok { StatusCode := 200, Body := "devices" }
      else .ok { StatusCode := 401, Body := "expired" }
    Post := fun _ _ _ _ => .error (.external "connection refused") }

/-- A session with the token `old` whose reauthentication always succeeds: the
first call returns `new-1`, the second `new-2`, and so on. -/
def sessionOn (client : Client) : MelcloudRequestor :=
  { client := client
    contextKey := "old"
    reauthenticate := fun h => .ok ("new-" ++ toString ((reauths h).length + 1)) }

/-- A session with the token `old` whose reauthentication always fails. -/
def lockedOut (client : Client) : MelcloudRequestor :=
  { client := client
    contextKey := "old"
    reauthenticate := fun _ => .error (.errorf "Reauthentication failed: account locked") }

/-- The request that `makeGet` builds for the device list: no header yet. -/
def listRequest : Request :=
  { Method := "GET"
    URL := { Scheme := lit "https", Host := lit "app.melcloud.com",
             Path := lit "/Mitsubishi.Wifi.Client/User/ListDevices", RawQuery := [] }
    Header := [] }

/-! ## Reading a decimal rendering back -/

/-- The number that a list of decimal digit characters denotes, read after the
digits that denote `acc`. -/
def decimalValue (acc : Nat) (cs : List Char) : Nat :=
  cs.foldl (fun a c => a * 10 + (c.toNat - 48)) acc

/-- The integer that a decimal rendering denotes. -/
def parseInt (cs : List Char) : Int :=
  match cs with
  | '-' :: rest => - (decimalValue 0 rest : Int)
  | _ => (decimalValue 0 cs : Int)

/-! ## A stub login service, for the examples -/

/-- A stand-in for the JSON decoder, on three bodies: a login answer with a
token, one with an error code, and one with neither (the struct is left as it
was found). -/
def stubDecode (body : String) (into : loginResponse) : Except GoError loginResponse :=
  if body = "token=abc" then .ok { into with LoginData := { ContextKey := "abc" } }
  else if body = "error=1" then .ok { into with ErrorId := some 1 }
  else if body = "blank" then .ok into
  else .error (.external "invalid character")

/-- A stand-in for the login endpoint: `alice/secret` gets a token, `carol/secret`
gets a 500 with a blank answer, anyone else the error code 1. -/
def stubLogin : Client :=
  { Do := fun _ _ => .ok { StatusCode := 200, Body := "devices" }
    Post := fun _ url _ body =>
      if url ≠ loginUrl then .error (.external "no such host")
      else if body = "alice/secret" then .ok { StatusCode := 200, Body := "token=abc" }
      else if body = "carol/secret" then .ok { StatusCode := 500, Body := "blank" }
      else .ok { StatusCode := 200, Body := "error=1" } }

/-- The environment made of `stubLogin` and `stubDecode`. -/
def stubEnv : Env :=
  { DefaultClient := stubLogin
    jsonMarshal := fun req => req.Email ++ "/" ++ req.Password
    jsonDecode := stubDecode }

/-! ## Lemmas on histories -/

theorem sends_append (h₁ h₂ : History) : sends (h₁ ++ h₂) = sends h₁ ++ sends h₂ := by
  induction h₁ with
  | nil => rfl
  | cons e h ih => cases e <;> simp [sends, ih]

theorem reauths_append (h₁ h₂ : History) : reauths (h₁ ++ h₂) = reauths h₁ ++ reauths h₂ := by
  induction h₁ with
  | nil => rfl
  | cons e h ih => cases e <;> simp [reauths, ih]

theorem unauthorized_append (h₁ h₂ : History) :
    unauthorized (h₁ ++ h₂) = unauthorized h₁ + unauthorized h₂ := by
  induction h₁ with
  | nil => simp [unauthorized]
  | cons e h ih =>
    cases e with
    | send q res =>
      cases res with
      | error e => simp [unauthorized, ih]
      | ok res => simp [unauthorized, ih]; omega
    | reauth res => simp [unauthorized, ih]

/-! ## One call of `makeRequest` -/

theorem makeRequest_step_error (fuel : Nat) (r : MelcloudRequestor) (req : Request) (h : History)
    (e : GoError) (hdo : r.client.Do h (prepared r.contextKey req) = .error e) :
    makeRequest (fuel + 1) r req h =
      some (.error (.wrap "MELCloud request failed: " e), r, prepared r.contextKey req,
        h ++ [.send (prepared r.contextKey req) (.error e)]) := by
  simp only [makeRequest, prepared] at hdo ⊢
  rw [hdo]

theorem makeRequest_step_ok (fuel : Nat) (r : MelcloudRequestor) (req : Request) (h : History)
    (res : Response) (hdo : r.client.Do h (prepared r.contextKey req) = .ok res)
    (hs : res.StatusCode ≠ StatusUnauthorized) :
    makeRequest (fuel + 1) r req h =
      some (.ok res, r, prepared r.contextKey req,
        h ++ [.send (prepared r.contextKey req) (.ok res)]) := by
  simp only [makeRequest, prepared] at hdo ⊢
  rw [hdo]
  simp [hs]

theorem makeRequest_step_reauth_error (fuel : Nat) (r : MelcloudRequestor) (req : Request)
    (h : History) (res : Response) (e : GoError)
    (hdo : r.client.Do h (prepared r.contextKey req) = .ok res)
    (hs : res.StatusCode = StatusUnauthorized)
    (hre : r.reauthenticate (h ++ [.send (prepared r.contextKey req) (.ok res)]) = .error e) :
    makeRequest (fuel + 1) r req h =
      some (.error e, r, prepared r.contextKey req,
        h ++ [.send (prepared r.contextKey req) (.ok res), .reauth (.error e)]) := by
  simp only [makeRequest, prepared] at hdo hre ⊢
  rw [hdo]
  simp only [hs, if_true]
  rw [hre]
  simp

theorem makeRequest_step_retry (fuel : Nat) (r : MelcloudRequestor) (req : Request)
    (h : History) (res : Response) (t : String)
    (hdo : r.client.Do h (prepared r.contextKey req) = .ok res)
    (hs : res.StatusCode = StatusUnauthorized)
    (hre : r.reauthenticate (h ++ [.send (prepared r.contextKey req) (.ok res)]) = .ok t) :
    makeRequest (fuel + 1) r req h =
      makeRequest fuel { r with contextKey := t } (prepared r.contextKey req)
        (h ++ [.send (prepared r.contextKey req) (.ok res), .reauth (.ok t)]) := by
  simp only [makeRequest, prepared] at hdo hre ⊢
  rw [hdo]
  simp only [hs, if_true]
  rw [hre]
  simp

/-- Every call of `makeRequest` that returns has made one send per nested call:
one reauthentication per 401 response, and one send more than it made
successful reauthentications. -/
theorem makeRequest_trace (fuel : Nat) :
    ∀ (r : MelcloudRequestor) (req : Request) (h : History)
      (out : Except GoError Response × MelcloudRequestor × Request × History),
      makeRequest fuel r req h = some out →
      ∃ tr, out.2.2.2 = h ++ tr ∧ (reauths tr).length = unauthorized tr ∧
        (sends tr).length = ((reauths tr).filter (fun x => x.isOk)).length + 1 := by
  induction fuel with
  | zero => intro r req h out hrun; simp [makeRequest] at hrun
  | succ fuel ih =>
    intro r req h out hrun
    cases hdo : r.client.Do h (prepared r.contextKey req) with
    | error e =>
      rw [makeRequest_step_error fuel r req h e hdo] at hrun
      cases hrun
      exact ⟨[.send (prepared r.contextKey req) (.error e)], rfl, rfl, rfl⟩
    | ok res =>
      by_cases hs : res.StatusCode = StatusUnauthorized
      · cases hre : r.reauthenticate (h ++ [.send (prepared r.contextKey req) (.ok res)]) with
        | error e =>
          rw [makeRequest_step_reauth_error fuel r req h res e hdo hs hre] at hrun
          cases hrun
          exact ⟨[.send (prepared r.contextKey req) (.ok res), .reauth (.error e)], rfl,
            by simp [reauths, unauthorized, hs], by simp [reauths, sends, Except.isOk, Except.toBool]⟩
        | ok t =>
          rw [makeRequest_step_retry fuel r req h res t hdo hs hre] at hrun
          obtain ⟨tr, htr, h1, h2⟩ := ih _ _ _ _ hrun
          refine ⟨[.send (prepared r.contextKey req) (.ok res), .reauth (.ok t)] ++ tr, ?_, ?_, ?_⟩
          · rw [htr]; simp
          · simp [reauths, unauthorized, hs, h1]; omega
          · simp [reauths, sends, Except.isOk, Except.toBool, h2]
      · rw [makeRequest_step_ok fuel r req h res hdo hs] at hrun
        cases hrun
        exact ⟨[.send (prepared r.contextKey req) (.ok res)], rfl,
          by simp [reauths, unauthorized, hs], by simp [reauths, sends]⟩

/-- Against a transport that always answers 401, with a reauthentication that
always succeeds, no amount of fuel lets `makeRequest` return. -/
theorem makeRequest_never_returns (fuel : Nat) :
    ∀ (r : MelcloudRequestor) (req : Request) (h : History),
      (∀ h' q, ∃ res, r.client.Do h' q = .ok res ∧ res.StatusCode = StatusUnauthorized) →
      (∀ h', ∃ t, r.reauthenticate h' = .ok t) →
      makeRequest fuel r req h = none := by
  induction fuel with
  | zero => intro r req h _ _; rfl
  | succ fuel ih =>
    intro r req h hdo hre
    obtain ⟨res, hres, hs⟩ := hdo h (prepared r.contextKey req)
    obtain ⟨t, ht⟩ := hre (h ++ [.send (prepared r.contextKey req) (.ok res)])
    rw [makeRequest_step_retry fuel r req h res t hres hs ht]
    exact ih _ _ _ hdo hre


/-! ## Cycles of 401 and reauthentication -/

theorem reauths_afterCycles (resps : Nat → Response) (toks : Nat → String) (key : String)
    (req : Request) (h : History) (k : Nat) :
    reauths (afterCycles resps toks key req h k).h =
      reauths h ++ (List.range k).map (fun i => .ok (toks i)) := by
  induction k with
  | zero => simp [afterCycles]
  | succ k ih => simp [afterCycles, reauths_append, reauths, ih, List.range_succ]

theorem sends_afterCycles (resps : Nat → Response) (toks : Nat → String) (key : String)
    (req : Request) (h : History) (k : Nat) :
    sends (afterCycles resps toks key req h k).h =
      sends h ++ (List.range k).map (fun i => (sentAt resps toks key req h i, .ok (resps i))) := by
  induction k with
  | zero => simp [afterCycles]
  | succ k ih => simp [afterCycles, sends_append, sends, ih, List.range_succ, sentAt]

theorem unauthorized_afterCycles (resps : Nat → Response) (toks : Nat → String) (key : String)
    (req : Request) (h : History) (k : Nat)
    (h401 : ∀ i, i < k → (resps i).StatusCode = StatusUnauthorized) :
    unauthorized (afterCycles resps toks key req h k).h = unauthorized h + k := by
  induction k with
  | zero => simp [afterCycles]
  | succ k ih =>
    have hk := h401 k (by omega)
    have := ih (fun i hi => h401 i (by omega))
    simp [afterCycles, unauthorized_append, unauthorized, hk, this]
    omega

/-- While each send is answered 401 and each reauthentication succeeds, `k`
nested calls of `makeRequest` go through `k` cycles and hand over to the next
call at the stage `afterCycles ... k`. -/
theorem makeRequest_afterCycles (r : MelcloudRequestor) (req : Request) (h : History)
    (resps : Nat → Response) (toks : Nat → String) (k : Nat) :
    (∀ i, i < k →
      r.client.Do (afterCycles resps toks r.contextKey req h i).h
          (sentAt resps toks r.contextKey req h i) = .ok (resps i) ∧
        (resps i).StatusCode = StatusUnauthorized) →
    (∀ i, i < k →
      r.reauthenticate ((afterCycles resps toks r.contextKey req h i).h ++
        [.send (sentAt resps toks r.contextKey req h i) (.ok (resps i))]) = .ok (toks i)) →
    ∀ fuel, makeRequest (fuel + k) r req h =
      makeRequest fuel { r with contextKey := (afterCycles resps toks r.contextKey req h k).key }
        (afterCycles resps toks r.contextKey req h k).req
        (afterCycles resps toks r.contextKey req h k).h := by
  induction k with
  | zero => intro _ _ fuel; rfl
  | succ k ih =>
    intro h401 hre fuel
    have hprev := ih (fun i hi => h401 i (by omega)) (fun i hi => hre i (by omega)) (fuel + 1)
    have hsum : fuel + (k + 1) = fuel + 1 + k := by omega
    rw [hsum, hprev]
    obtain ⟨hdo, hs⟩ := h401 k (by omega)
    have hr := hre k (by omega)
    exact makeRequest_step_retry fuel
      { r with contextKey := (afterCycles resps toks r.contextKey req h k).key }
      (afterCycles resps toks r.contextKey req h k).req
      (afterCycles resps toks r.contextKey req h k).h (resps k) (toks k) hdo hs hr

/-! ## The claims on `makeRequest` -/

/-- C1: for every `k`, session, request and starting history: if each of the
first `k` sends that `makeRequest` makes is answered with a response `resps i`
of status 401, each reauthentication that follows returns a token `toks i`, and
the send number `k + 1` is answered with a response `res` whose status is not
401, then `makeRequest` returns (with any fuel above `k`) exactly `res` without
error; it has invoked `reauthenticate` exactly `k` times, once per 401, and
sent exactly `k + 1` requests; and the session's `contextKey` is the token
returned by the last reauthentication (for `k = 0`, unchanged). -/
theorem makeRequest_retries_until_authorized (k : Nat) (r : MelcloudRequestor) (req : Request)
    (h : History) (resps : Nat → Response) (toks : Nat → String) (res : Response)
    (h401 : ∀ i, i < k →
      r.client.Do (afterCycles resps toks r.contextKey req h i).h
          (sentAt resps toks r.contextKey req h i) = .ok (resps i) ∧
        (resps i).StatusCode = StatusUnauthorized)
    (hre : ∀ i, i < k →
      r.reauthenticate ((afterCycles resps toks r.contextKey req h i).h ++
        [.send (sentAt resps toks r.contextKey req h i) (.ok (resps i))]) = .ok (toks i))
    (hlast : r.client.Do (afterCycles resps toks r.contextKey req h k).h
      (sentAt resps toks r.contextKey req h k) = .ok res)
    (hs : res.StatusCode ≠ StatusUnauthorized)
    (fuel : Nat) (hfuel : k < fuel) :
    ∃ h', makeRequest fuel r req h =
        some (.ok res,
          { r with contextKey := (afterCycles resps toks r.contextKey req h k).key },
          sentAt resps toks r.contextKey req h k, h') ∧
      h' = (afterCycles resps toks r.contextKey req h k).h ++
        [.send (sentAt resps toks r.contextKey req h k) (.ok res)] ∧
      reauths h' = reauths h ++ (List.range k).map (fun i => .ok (toks i)) ∧
      (reauths h').length = (reauths h).length + k ∧
      unauthorized h' = unauthorized h + k ∧
      sends h' = sends h ++
        (List.range k).map (fun i => (sentAt resps toks r.contextKey req h i, .ok (resps i))) ++
        [(sentAt resps toks r.contextKey req h k, .ok res)] ∧
      (sends h').length = (sends h).length + (k + 1) ∧
      (k = 0 → (afterCycles resps toks r.contextKey req h k).key = r.contextKey) ∧
      (∀ j, k = j + 1 → (afterCycles resps toks r.contextKey req h k).key = toks j) := by
  have hrun := makeRequest_afterCycles r req h resps toks k h401 hre (fuel - k - 1 + 1)
  have hf : fuel - k - 1 + 1 + k = fuel := by omega
  rw [hf] at hrun
  have hfinal := makeRequest_step_ok (fuel - k - 1)
    { r with contextKey := (afterCycles resps toks r.contextKey req h k).key }
    (afterCycles resps toks r.contextKey req h k).req
    (afterCycles resps toks r.contextKey req h k).h res hlast hs
  have hre' := reauths_afterCycles resps toks r.contextKey req h k
  have hse' := sends_afterCycles resps toks r.contextKey req h k
  have hun' := unauthorized_afterCycles resps toks r.contextKey req h k
    (fun i hi => (h401 i hi).2)
  refine ⟨_, ?_, rfl, ?_, ?_, ?_, ?_, ?_, ?_, ?_⟩
  · rw [hrun, hfinal]; rfl
  · simp [reauths_append, reauths, hre']
  · simp [reauths_append, reauths, hre']
  · simp [unauthorized_append, unauthorized, hs, hun']
  · simp [sends_append, sends, hse']
  · simp [sends_append, sends, hse']
  · intro hk; subst hk; rfl
  · intro j hj; subst hj; rfl

/-- Witness for C1 with `k = 1`, against a transport that checks the token: 401
for the stale token, then 200 for the retry that carries `new-1`. -/
theorem makeRequest_retries_until_authorized_witness :
    ∃ h', makeRequest 2 (sessionOn checksToken) listRequest [] =
        some (.ok { StatusCode := 200, Body := "devices" },
          { sessionOn checksToken with contextKey := "new-1" },
          prepared "new-1" (prepared "old" listRequest), h') ∧
      h' = [.send (prepared "old" listRequest) (.ok { StatusCode := 401, Body := "expired" }),
            .reauth (.ok "new-1"),
            .send (prepared "new-1" (prepared "old" listRequest))
              (.ok { StatusCode := 200, Body := "devices" })] ∧
      (reauths h').length = 1 ∧ unauthorized h' = 1 ∧ (sends h').length = 2 :=
  have key := makeRequest_retries_until_authorized 1 (sessionOn checksToken) listRequest []
    (fun _ => { StatusCode := 401, Body := "expired" }) (fun _ => "new-1")
    { StatusCode := 200, Body := "devices" }
    (fun i hi => by
      obtain rfl : i = 0 := by omega
      exact ⟨by decide, rfl⟩)
    (fun i hi => by
      obtain rfl : i = 0 := by omega
      decide)
    (by decide) (by decide) 2 (by decide)
  key.elim fun h' hh => ⟨h', hh.1, hh.2.1, by simpa [reauths] using hh.2.2.2.1,
    by simpa [unauthorized] using hh.2.2.2.2.1, by simpa [sends] using hh.2.2.2.2.2.2.1⟩

/-- C2, counterexample: against a transport that answers 401 twice and then
200, one call of `makeRequest` returns after two reauthentications and three
sends, not after at most one and two. -/
theorem makeRequest_reauthenticates_twice :
    (makeRequest 3 (sessionOn (expiredFor 2)) listRequest []).map
        (fun out => (out.1, (reauths out.2.2.2).length, (sends out.2.2.2).length)) =
      some (.ok { StatusCode := 200, Body := "devices" }, 2, 3) := by
  decide

/-- C2, amended: `makeRequest` performs one reauthentication per 401 response,
without a bound.  A call that returns has invoked `reauthenticate` exactly once
per 401 response received and has sent one request more than it made successful
reauthentications; and against a transport that answers 401 to every request
while reauthentication always succeeds, the call never returns, whatever the
fuel. -/
theorem makeRequest_one_reauthentication_per_401 (fuel : Nat) (r : MelcloudRequestor)
    (req : Request) :
    (∀ out, makeRequest fuel r req [] = some out →
      (reauths out.2.2.2).length = unauthorized out.2.2.2 ∧
      (sends out.2.2.2).length = ((reauths out.2.2.2).filter (fun x => x.isOk)).length + 1) ∧
    ((∀ h q, ∃ res, r.client.Do h q = .ok res ∧ res.StatusCode = StatusUnauthorized) →
      (∀ h, ∃ t, r.reauthenticate h = .ok t) →
      makeRequest fuel r req [] = none) := by
  constructor
  · intro out hrun
    obtain ⟨tr, htr, h1, h2⟩ := makeRequest_trace fuel r req [] out hrun
    rw [htr]
    exact ⟨by simpa using h1, by simpa using h2⟩
  · intro hdo hre
    exact makeRequest_never_returns fuel r req [] hdo hre

/-- Witness for C2 as amended: a run with two 401 responses, and a run that
never returns. -/
theorem makeRequest_one_reauthentication_per_401_witness :
    ((makeRequest 3 (sessionOn (expiredFor 2)) listRequest []).isSome = true ∧
      ∀ out, makeRequest 3 (sessionOn (expiredFor 2)) listRequest [] = some out →
        (reauths out.2.2.2).length = unauthorized out.2.2.2 ∧
        (sends out.2.2.2).length = ((reauths out.2.2.2).filter (fun x => x.isOk)).length + 1) ∧
    makeRequest 1000 (sessionOn alwaysExpired) listRequest [] = none :=
  ⟨⟨by decide,
    (makeRequest_one_reauthentication_per_401 3 (sessionOn (expiredFor 2)) listRequest).1⟩,
   (makeRequest_one_reauthentication_per_401 1000 (sessionOn alwaysExpired) listRequest).2
    (fun _ _ => ⟨_, rfl, rfl⟩) (fun _ => ⟨_, rfl⟩)⟩

/-- C3, the code at the failing input: the request retried after a 401 carries
two `X-MitsContextKey` values, the stale token first and the new one second,
and two `Accept` values; only the first send carries exactly one of each. -/
theorem makeRequest_retry_keeps_stale_token :
    (makeRequest 2 (sessionOn (expiredFor 1)) listRequest []).map
        (fun out => (out.2.1.contextKey,
          (sends out.2.2.2).map (fun s =>
            (s.1.Header.Values "X-MitsContextKey", s.1.Header.Values "Accept")))) =
      some ("new-1",
        [(["old"], ["application/json"]),
         (["old", "new-1"], ["application/json", "application/json"])]) := by
  decide

/-- C4: if the transport answers the first send with a response whose status is
not 401, `makeRequest` returns exactly that response with no error, the session
unchanged, after one send and no reauthentication; and `makeGet` returns the
body of that response. -/
theorem makeRequest_returns_other_status (fuel : Nat) (r : MelcloudRequestor) (req : Request)
    (h : History) (res : Response)
    (hdo : r.client.Do h (prepared r.contextKey req) = .ok res)
    (hs : res.StatusCode ≠ StatusUnauthorized) :
    makeRequest (fuel + 1) r req h =
      some (.ok res, r, prepared r.contextKey req,
        h ++ [.send (prepared r.contextKey req) (.ok res)]) ∧
    reauths (h ++ [.send (prepared r.contextKey req) (.ok res)]) = reauths h ∧
    sends (h ++ [.send (prepared r.contextKey req) (.ok res)]) =
      sends h ++ [(prepared r.contextKey req, .ok res)] ∧
    ∀ u : URL, NewRequest "GET" u.String = .ok req →
      makeGet (fuel + 1) r u h =
        some (.ok res.Body, r, h ++ [.send (prepared r.contextKey req) (.ok res)]) := by
  have hrun := makeRequest_step_ok fuel r req h res hdo hs
  refine ⟨hrun, by simp [reauths_append, reauths], by simp [sends_append, sends], ?_⟩
  intro u hu
  simp only [makeGet, hu, hrun]

/-- Witness for C4: a 404 on the device list. -/
theorem makeRequest_returns_other_status_witness :
    makeRequest 1 (sessionOn notFound) listRequest [] =
        some (.ok { StatusCode := 404, Body := "no such device" }, sessionOn notFound,
          prepared "old" listRequest,
          [.send (prepared "old" listRequest) (.ok { StatusCode := 404, Body := "no such device" })]) ∧
      makeGet 1 (sessionOn notFound)
          { Scheme := lit "https", Host := lit "app.melcloud.com",
            Path := lit "/Mitsubishi.Wifi.Client/User/ListDevices", RawQuery := [] } [] =
        some (.ok "no such device", sessionOn notFound,
          [.send (prepared "old" listRequest) (.ok { StatusCode := 404, Body := "no such device" })]) :=
  have key := makeRequest_returns_other_status 0 (sessionOn notFound) listRequest []
    { StatusCode := 404, Body := "no such device" } rfl (by decide)
  ⟨key.1, key.2.2.2 _ (by decide)⟩

/-- C5: if the send is answered with 401 and the stored `reauthenticate`
returns the error `e`, `makeRequest` returns no response and the error `e`
itself, makes no further send, and leaves the session as it was; `makeGet`
hands on an error that unwraps to `e`. -/
theorem makeRequest_propagates_reauth_error (fuel : Nat) (r : MelcloudRequestor) (req : Request)
    (h : History) (res : Response) (e : GoError)
    (hdo : r.client.Do h (prepared r.contextKey req) = .ok res)
    (hs : res.StatusCode = StatusUnauthorized)
    (hre : r.reauthenticate (h ++ [.send (prepared r.contextKey req) (.ok res)]) = .error e) :
    makeRequest (fuel + 1) r req h =
      some (.error e, r, prepared r.contextKey req,
        h ++ [.send (prepared r.contextKey req) (.ok res), .reauth (.error e)]) ∧
    sends (h ++ [.send (prepared r.contextKey req) (.ok res), .reauth (.error e)]) =
      sends h ++ [(prepared r.contextKey req, .ok res)] ∧
    reauths (h ++ [.send (prepared r.contextKey req) (.ok res), .reauth (.error e)]) =
      reauths h ++ [.error e] ∧
    (∀ u : URL, NewRequest "GET" u.String = .ok req →
      makeGet (fuel + 1) r u h =
        some (.error (.wrap "Unable to query MELCloud: " e), r,
          h ++ [.send (prepared r.contextKey req) (.ok res), .reauth (.error e)])) ∧
    (GoError.wrap "Unable to query MELCloud: " e).Unwrap = some e := by
  have hrun := makeRequest_step_reauth_error fuel r req h res e hdo hs hre
  refine ⟨hrun, by simp [sends_append, sends], by simp [reauths_append, reauths], ?_, rfl⟩
  intro u hu
  simp only [makeGet, hu, hrun]

/-- Witness for C5: the token has expired and the account is locked out. -/
theorem makeRequest_propagates_reauth_error_witness :
    makeRequest 1 (lockedOut alwaysExpired) listRequest [] =
      some (.error (.errorf "Reauthentication failed: account locked"), lockedOut alwaysExpired,
        prepared "old" listRequest,
        [.send (prepared "old" listRequest) (.ok { StatusCode := 401, Body := "expired" }),
         .reauth (.error (.errorf "Reauthentication failed: account locked"))]) :=
  (makeRequest_propagates_reauth_error 0 (lockedOut alwaysExpired) listRequest []
    { StatusCode := 401, Body := "expired" } (.errorf "Reauthentication failed: account locked")
    rfl rfl rfl).1

/-- C6: if the transport fails on the send with the error `e`, `makeRequest`
returns at once no response and an error that wraps `e`, without calling
`reauthenticate` and without another send, and leaves the session as it was. -/
theorem makeRequest_transport_failure (fuel : Nat) (r : MelcloudRequestor) (req : Request)
    (h : History) (e : GoError)
    (hdo : r.client.Do h (prepared r.contextKey req) = .error e) :
    makeRequest (fuel + 1) r req h =
      some (.error (.wrap "MELCloud request failed: " e), r, prepared r.contextKey req,
        h ++ [.send (prepared r.contextKey req) (.error e)]) ∧
    (GoError.wrap "MELCloud request failed: " e).Unwrap = some e ∧
    reauths (h ++ [.send (prepared r.contextKey req) (.error e)]) = reauths h ∧
    sends (h ++ [.send (prepared r.contextKey req) (.error e)]) =
      sends h ++ [(prepared r.contextKey req, .error e)] := by
  exact ⟨makeRequest_step_error fuel r req h e hdo, rfl, by simp [reauths_append, reauths],
    by simp [sends_append, sends]⟩

/-- Witness for C6: the connection is refused. -/
theorem makeRequest_transport_failure_witness :
    makeRequest 1 (sessionOn unreachable) listRequest [] =
      some (.error (.wrap "MELCloud request failed: " (.external "connection refused")),
        sessionOn unreachable, prepared "old" listRequest,
        [.send (prepared "old" listRequest) (.error (.external "connection refused"))]) :=
  (makeRequest_transport_failure 0 (sessionOn unreachable) listRequest []
    (.external "connection refused") rfl).1


/-! ## The decimal rendering of an error code -/

theorem digitChar_value (k : Nat) (hk : k < 10) : (Nat.digitChar k).toNat - 48 = k := by
  interval_cases k <;> rfl

theorem digitChar_ne_minus (k : Nat) (hk : k < 10) : Nat.digitChar k ≠ '-' := by
  interval_cases k <;> decide

theorem decimalValue_toDigitsCore (fuel : Nat) :
    ∀ (n : Nat) (ds : List Char), n < fuel →
      decimalValue 0 (Nat.toDigitsCore 10 fuel n ds) = decimalValue n ds := by
  induction fuel with
  | zero => intro n ds hn; omega
  | succ fuel ih =>
    intro n ds hn
    simp only [Nat.toDigitsCore]
    split
    · rename_i h0
      have hlt : n < 10 := by omega
      simp only [decimalValue, List.foldl_cons, Nat.mod_eq_of_lt hlt, digitChar_value n hlt]
      simp
    · rename_i h0
      rw [ih (n / 10) _ (by omega)]
      simp only [decimalValue, List.foldl_cons, digitChar_value (n % 10) (Nat.mod_lt _ (by decide))]
      congr 1
      omega

theorem toDigitsCore_head (fuel : Nat) :
    ∀ (n : Nat) (ds : List Char), 0 < fuel →
      ∃ k tl, k < 10 ∧ Nat.toDigitsCore 10 fuel n ds = Nat.digitChar k :: tl := by
  induction fuel with
  | zero => intro n ds h; omega
  | succ fuel ih =>
    intro n ds _
    simp only [Nat.toDigitsCore]
    split
    · exact ⟨n % 10, ds, Nat.mod_lt _ (by decide), rfl⟩
    · rename_i h0
      rcases Nat.eq_zero_or_pos fuel with hf | hf
      · subst hf
        exact ⟨n % 10, ds, Nat.mod_lt _ (by decide), by simp [Nat.toDigitsCore]⟩
      · exact ih _ _ hf

theorem decimalValue_repr (n : Nat) : decimalValue 0 (Nat.repr n).data = n := by
  simp only [Nat.repr, Nat.toDigits, List.asString]
  rw [decimalValue_toDigitsCore (n + 1) n [] (by omega)]
  rfl

theorem repr_head (n : Nat) : ∃ k tl, k < 10 ∧ (Nat.repr n).data = Nat.digitChar k :: tl := by
  simp only [Nat.repr, Nat.toDigits, List.asString]
  exact toDigitsCore_head (n + 1) n [] (by omega)

theorem parseInt_formatInt (n : Int) : parseInt (formatInt n).data = n := by
  cases n with
  | ofNat m =>
    show parseInt (Nat.repr m).data = _
    obtain ⟨k, tl, hk, hrepr⟩ := repr_head m
    have hval := decimalValue_repr m
    rw [hrepr] at hval ⊢
    have hne := digitChar_ne_minus k hk
    unfold parseInt
    split
    · rename_i heq
      simp at heq
      exact absurd heq.1 hne
    · simp [hval]
  | negSucc m =>
    show parseInt ("-" ++ Nat.repr (m + 1)).data = _
    have hval := decimalValue_repr (m + 1)
    simp only [String.data_append]
    show parseInt ('-' :: (Nat.repr (m + 1)).data) = _
    simp only [parseInt, hval]
    rfl

theorem formatInt_injective (n m : Int) (h : formatInt n = formatInt m) : n = m := by
  rw [← parseInt_formatInt n, ← parseInt_formatInt m, h]

/-! ## Login -/

/-- The closure stored by `AuthenticateWithLogger` is the one of the source: it
calls `AuthenticateWithLogger` with the same credentials, wraps its error and
keeps the `contextKey` of its result. -/
theorem reauthenticate_calls_AuthenticateWithLogger (env : Env) (email password : String)
    (h : History) (r : MelcloudRequestor)
    (hr : AuthenticateWithLogger env email password h = .ok r) (h' : History) :
    r.reauthenticate h' =
      match AuthenticateWithLogger env email password h' with
      | .error err => .error (.wrap "Reauthentication failed: " err)
      | .ok result => .ok result.contextKey := by
  unfold AuthenticateWithLogger at hr ⊢
  cases h1 : loginRoundTrip env email password h with
  | error e => rw [h1] at hr; cases hr
  | ok response =>
    rw [h1] at hr
    cases hr
    cases h2 : loginRoundTrip env email password h' <;> simp [h2]

/-- The login round trip on a decoded answer without error code. -/
theorem loginRoundTrip_ok (env : Env) (email password : String) (h : History)
    (rawResponse : Response) (response : loginResponse)
    (hpost : env.DefaultClient.Post h loginUrl "application/json"
      (env.jsonMarshal (newLoginRequest email password)) = .ok rawResponse)
    (hdec : env.jsonDecode rawResponse.Body loginResponse.zero = .ok response)
    (hnil : response.ErrorId = none) :
    loginRoundTrip env email password h = .ok response := by
  simp only [loginRoundTrip, hpost, hdec, hnil]

/-- C7: if the login POST succeeds at transport level and its body decodes to a
login response with a nil error code, `AuthenticateWithLogger` returns without
error a session whose `contextKey` is the one of the response, on the default
client, and whose `reauthenticate` runs `AuthenticateWithLogger` again with the
same email and password and yields the `contextKey` of that login. -/
theorem AuthenticateWithLogger_returns_session (env : Env) (email password : String)
    (h : History) (rawResponse : Response) (response : loginResponse)
    (hpost : env.DefaultClient.Post h loginUrl "application/json"
      (env.jsonMarshal (newLoginRequest email password)) = .ok rawResponse)
    (hdec : env.jsonDecode rawResponse.Body loginResponse.zero = .ok response)
    (hnil : response.ErrorId = none) :
    ∃ r, AuthenticateWithLogger env email password h = .ok r ∧
      r.contextKey = response.LoginData.ContextKey ∧
      ∀ h', r.reauthenticate h' =
        match AuthenticateWithLogger env email password h' with
        | .error err => .error (.wrap "Reauthentication failed: " err)
        | .ok result => .ok result.contextKey := by
  have hrt := loginRoundTrip_ok env email password h rawResponse response hpost hdec hnil
  have hr : ∃ r, AuthenticateWithLogger env email password h = .ok r ∧
      r.contextKey = response.LoginData.ContextKey := by
    simp only [AuthenticateWithLogger, hrt]
    exact ⟨_, rfl, rfl⟩
  obtain ⟨r, hr, hkey⟩ := hr
  exact ⟨r, hr, hkey,
    reauthenticate_calls_AuthenticateWithLogger env email password h r hr⟩

/-- Witness for C7: `alice` logs in against the stub and gets the token `abc`. -/
theorem AuthenticateWithLogger_returns_session_witness :
    ∃ r, AuthenticateWithLogger stubEnv "alice" "secret" [] = .ok r ∧
      r.contextKey = "abc" ∧
      ∀ h', r.reauthenticate h' =
        match AuthenticateWithLogger stubEnv "alice" "secret" h' with
        | .error err => .error (.wrap "Reauthentication failed: " err)
        | .ok result => .ok result.contextKey :=
  AuthenticateWithLogger_returns_session stubEnv "alice" "secret" []
    { StatusCode := 200, Body := "token=abc" }
    { ErrorId := none, LoginData := { ContextKey := "abc" } }
    (by decide) (by decide) rfl

/-- C8: if the decoded login response carries the error code `n`,
`AuthenticateWithLogger` returns no session but an error whose message ends
with the decimal rendering of `n`, whatever `contextKey` the response carries;
the message determines `n`. -/
theorem AuthenticateWithLogger_rejects_error_code (env : Env) (email password : String)
    (h : History) (rawResponse : Response) (response : loginResponse) (n : Int)
    (hpost : env.DefaultClient.Post h loginUrl "application/json"
      (env.jsonMarshal (newLoginRequest email password)) = .ok rawResponse)
    (hdec : env.jsonDecode rawResponse.Body loginResponse.zero = .ok response)
    (hcode : response.ErrorId = some n) :
    ∃ err, AuthenticateWithLogger env email password h = .error err ∧
      err.Error = "Unable to sign in to MELCloud, maybe your credentials are incorrect? (err: "
        ++ formatInt n ++ ")" ∧
      ∀ m : Int, err.Error =
        "Unable to sign in to MELCloud, maybe your credentials are incorrect? (err: "
          ++ formatInt m ++ ")" → m = n := by
  refine ⟨.errorf ("Unable to sign in to MELCloud, maybe your credentials are incorrect? (err: "
    ++ formatInt n ++ ")"), ?_, rfl, ?_⟩
  · simp only [AuthenticateWithLogger, loginRoundTrip, hpost, hdec, hcode]
  · intro m hm
    simp only [GoError.Error] at hm
    have hdata := congrArg String.data hm
    simp only [String.data_append, List.append_assoc] at hdata
    have h1 := List.append_cancel_left hdata
    have h2 := List.append_cancel_right h1
    exact formatInt_injective m n (String.ext h2.symm)

/-- Witness for C8: `dave` is rejected with the error code 1. -/
theorem AuthenticateWithLogger_rejects_error_code_witness :
    ∃ err, AuthenticateWithLogger stubEnv "dave" "wrong" [] = .error err ∧
      err.Error = "Unable to sign in to MELCloud, maybe your credentials are incorrect? (err: "
        ++ formatInt 1 ++ ")" ∧
      ∀ m : Int, err.Error =
        "Unable to sign in to MELCloud, maybe your credentials are incorrect? (err: "
          ++ formatInt m ++ ")" → m = 1 :=
  AuthenticateWithLogger_rejects_error_code stubEnv "dave" "wrong" []
    { StatusCode := 200, Body := "error=1" }
    { ErrorId := some 1, LoginData := { ContextKey := "" } } 1
    (by decide) (by decide) rfl

/-- C10: `AuthenticateWithLogger` decides success from the decoded body alone.
Whatever the status code of the login answer, a body that decodes with a nil
error code yields a session, with the `contextKey` of the decoded answer; when
the decoder found no `contextKey` and left the field of `loginResponse{}` as it
was, the token of the session is the empty string. -/
theorem AuthenticateWithLogger_ignores_status (env : Env) (email password : String)
    (h : History) (status : Int) (body : String) (response : loginResponse)
    (hpost : env.DefaultClient.Post h loginUrl "application/json"
      (env.jsonMarshal (newLoginRequest email password)) =
        .ok { StatusCode := status, Body := body })
    (hdec : env.jsonDecode body loginResponse.zero = .ok response)
    (hnil : response.ErrorId = none) :
    ∃ r, AuthenticateWithLogger env email password h = .ok r ∧
      r.contextKey = response.LoginData.ContextKey ∧
      (response.LoginData.ContextKey = loginResponse.zero.LoginData.ContextKey →
        r.contextKey = "") := by
  have hrt := loginRoundTrip_ok env email password h { StatusCode := status, Body := body }
    response hpost hdec hnil
  simp only [AuthenticateWithLogger, hrt]
  exact ⟨_, rfl, rfl, fun hz => hz⟩

/-- Witness for C10: a 500 answer with neither token nor error code gives
`carol` a session with the empty token. -/
theorem AuthenticateWithLogger_ignores_status_witness :
    ∃ r, AuthenticateWithLogger stubEnv "carol" "secret" [] = .ok r ∧
      r.contextKey = loginResponse.zero.LoginData.ContextKey ∧
      (loginResponse.zero.LoginData.ContextKey = loginResponse.zero.LoginData.ContextKey →
        r.contextKey = "") :=
  AuthenticateWithLogger_ignores_status stubEnv "carol" "secret" [] 500 "blank"
    loginResponse.zero (by decide) (by decide) rfl

open encoding

/-! ## URL escaping -/

theorem ishex_upperhex (d : Nat) (hd : d < 16) : ishex (upperhex d) = true := by
  interval_cases d <;> decide

theorem unhex_upperhex (d : Nat) (hd : d < 16) : unhex (upperhex d) = d := by
  interval_cases d <;> decide

theorem upperhex_not_separator (d : Nat) (hd : d < 16) :
    upperhex d ≠ ch '&' ∧ upperhex d ≠ ch ';' ∧ upperhex d ≠ ch '=' := by
  interval_cases d <;> decide

theorem byte_of_nibbles (c : Fin 256) :
    (Fin.ofNat (unhex (upperhex (c.val / 16)) * 16 + unhex (upperhex (c.val % 16))) : Fin 256) = c := by
  rw [unhex_upperhex _ (by omega), unhex_upperhex _ (by omega)]
  apply Fin.ext
  show (c.val / 16 * 16 + c.val % 16) % 256 = c.val
  omega

/-- No byte of a query-escaped string is a separator of the query syntax. -/
theorem escape_query_not_separator (s : Bytes) :
    ∀ c ∈ escape s encodeQueryComponent, c ≠ ch '&' ∧ c ≠ ch ';' ∧ c ≠ ch '=' := by
  induction s with
  | nil => intro c hc; simp [escape] at hc
  | cons a s ih =>
    intro c hc
    unfold escape at hc
    split at hc
    · rcases List.mem_cons.mp hc with h | h
      · subst h; decide
      · exact ih c h
    · split at hc
      · rcases List.mem_cons.mp hc with h | h
        · subst h; decide
        · rcases List.mem_cons.mp h with h | h
          · subst h; exact upperhex_not_separator _ (by omega)
          · rcases List.mem_cons.mp h with h | h
            · subst h; exact upperhex_not_separator _ (by omega)
            · exact ih c h
      · rename_i hne hse
        rcases List.mem_cons.mp hc with h | h
        · subst h
          refine ⟨?_, ?_, ?_⟩ <;> intro hEq <;> rw [hEq] at hse <;> exact hse (by decide)
        · exact ih c h

/-- Escaping a query component and unescaping it gives the bytes back. -/
theorem unescape_escape_query (s : Bytes) :
    unescape (escape s encodeQueryComponent) encodeQueryComponent = .ok s := by
  induction s with
  | nil => rfl
  | cons a s ih =>
    unfold escape
    split
    · rename_i hsp
      have ha : a = ch ' ' := hsp.1
      subst ha
      unfold unescape
      rw [if_neg (by decide), if_pos (by decide), ih]
      rfl
    · split
      · unfold unescape
        rw [if_pos rfl]
        simp only [ishex_upperhex _ (show a.val / 16 < 16 by omega),
          ishex_upperhex _ (show a.val % 16 < 16 by omega), Bool.and_self, if_true]
        rw [if_neg (by simp), if_neg (by simp), ih]
        simp only [byte_of_nibbles]
      · rename_i hne hse
        have h1 : a ≠ ch '%' := by intro hEq; rw [hEq] at hse; exact hse (by decide)
        have h2 : a ≠ ch '+' := by intro hEq; rw [hEq] at hse; exact hse (by decide)
        unfold unescape
        rw [if_neg h1, if_neg h2, if_neg (by simp), ih]

open encoding

/-! ## The query string of the device-info URL -/

theorem Cut_before_separator (pre rest : Bytes) (sep : Fin 256) (hpre : sep ∉ pre) :
    Cut (pre ++ sep :: rest) sep = (pre, rest, true) := by
  induction pre with
  | nil => simp [Cut]
  | cons a pre ih =>
    have ha : a ≠ sep := fun hEq => hpre (by simp [hEq])
    have hrest : sep ∉ pre := fun hmem => hpre (List.mem_cons_of_mem _ hmem)
    show Cut (a :: (pre ++ sep :: rest)) sep = _
    rw [Cut, if_neg ha, ih hrest]

theorem Cut_without_separator (s : Bytes) (sep : Fin 256) (hs : sep ∉ s) :
    Cut s sep = (s, [], false) := by
  induction s with
  | nil => rfl
  | cons a s ih =>
    have ha : a ≠ sep := fun hEq => hs (by simp [hEq])
    have hrest : sep ∉ s := fun hmem => hs (List.mem_cons_of_mem _ hmem)
    rw [Cut, if_neg ha, ih hrest]

theorem QueryEscape_ne_nil (s : Bytes) (hs : s ≠ []) : QueryEscape s ≠ [] := by
  cases s with
  | nil => exact absurd rfl hs
  | cons a s =>
    unfold QueryEscape escape
    split
    · simp
    · split <;> simp

/-- One step of `parseQuery` on a pair `key=value` written by `Values.Encode`:
the pair, unescaped, is appended to the map, and the loop goes on after the
`&`. -/
theorem parseQuery_encoded_pair (m : Values) (err : Option GoError) (key value rest : Bytes)
    (hkey : key ≠ []) :
    parseQuery m err (QueryEscape key ++ ch '=' :: (QueryEscape value ++ ch '&' :: rest)) =
      parseQuery (mapSet m key (mapGet m key ++ [value])) err rest := by
  have hk := escape_query_not_separator key
  have hv := escape_query_not_separator value
  have hamp : ch '&' ∉ QueryEscape key ++ ch '=' :: QueryEscape value := by
    intro hmem
    rcases List.mem_append.mp hmem with h | h
    · exact (hk _ h).1 rfl
    · rcases List.mem_cons.mp h with h | h
      · exact absurd h (by decide)
      · exact (hv _ h).1 rfl
  have hsemi : ch ';' ∉ QueryEscape key ++ ch '=' :: QueryEscape value := by
    intro hmem
    rcases List.mem_append.mp hmem with h | h
    · exact (hk _ h).2.1 rfl
    · rcases List.mem_cons.mp h with h | h
      · exact absurd h (by decide)
      · exact (hv _ h).2.1 rfl
  have heq : ch '=' ∉ QueryEscape key := fun h => (hk _ h).2.2 rfl
  have hcut : Cut (QueryEscape key ++ ch '=' :: (QueryEscape value ++ ch '&' :: rest)) (ch '&') =
      (QueryEscape key ++ ch '=' :: QueryEscape value, rest, true) := by
    have := Cut_before_separator (QueryEscape key ++ ch '=' :: QueryEscape value) rest (ch '&') hamp
    simpa using this
  have hcut2 : Cut (QueryEscape key ++ ch '=' :: QueryEscape value) (ch '=') =
      (QueryEscape key, QueryEscape value, true) :=
    Cut_before_separator _ _ _ heq
  have hne := QueryEscape_ne_nil key hkey
  obtain ⟨c, q, hq⟩ : ∃ c q, QueryEscape key ++ ch '=' :: (QueryEscape value ++ ch '&' :: rest) = c :: q := by
    cases hE : QueryEscape key with
    | nil => exact absurd hE hne
    | cons c q => exact ⟨c, _, rfl⟩
  rw [hq, parseQuery, ← hq, hcut]
  simp only [hsemi, if_false, hcut2]
  have hnonempty : QueryEscape key ++ ch '=' :: QueryEscape value ≠ [] := by simp
  rw [if_neg hnonempty]
  simp only [QueryUnescape, QueryEscape, unescape_escape_query]

open encoding

/-- The last step of `parseQuery` on what `Values.Encode` wrote: one pair
`key=value` with no `&` after it. -/
theorem parseQuery_encoded_last (m : Values) (err : Option GoError) (key value : Bytes)
    (hkey : key ≠ []) :
    parseQuery m err (QueryEscape key ++ ch '=' :: QueryEscape value) =
      (mapSet m key (mapGet m key ++ [value]), err) := by
  have hk := escape_query_not_separator key
  have hv := escape_query_not_separator value
  have hamp : ch '&' ∉ QueryEscape key ++ ch '=' :: QueryEscape value := by
    intro hmem
    rcases List.mem_append.mp hmem with h | h
    · exact (hk _ h).1 rfl
    · rcases List.mem_cons.mp h with h | h
      · exact absurd h (by decide)
      · exact (hv _ h).1 rfl
  have hsemi : ch ';' ∉ QueryEscape key ++ ch '=' :: QueryEscape value := by
    intro hmem
    rcases List.mem_append.mp hmem with h | h
    · exact (hk _ h).2.1 rfl
    · rcases List.mem_cons.mp h with h | h
      · exact absurd h (by decide)
      · exact (hv _ h).2.1 rfl
  have heq : ch '=' ∉ QueryEscape key := fun h => (hk _ h).2.2 rfl
  have hcut := Cut_without_separator _ _ hamp
  have hcut2 : Cut (QueryEscape key ++ ch '=' :: QueryEscape value) (ch '=') =
      (QueryEscape key, QueryEscape value, true) :=
    Cut_before_separator _ _ _ heq
  have hne := QueryEscape_ne_nil key hkey
  obtain ⟨c, q, hq⟩ : ∃ c q, QueryEscape key ++ ch '=' :: QueryEscape value = c :: q := by
    cases hE : QueryEscape key with
    | nil => exact absurd hE hne
    | cons c q => exact ⟨c, _, rfl⟩
  rw [hq, parseQuery, ← hq, hcut]
  simp only [hsemi, if_false, hcut2]
  have hnonempty : QueryEscape key ++ ch '=' :: QueryEscape value ≠ [] := by simp
  rw [if_neg hnonempty]
  simp only [QueryUnescape, QueryEscape, unescape_escape_query]
  rw [parseQuery]

/-- What `Values.Encode` writes for the two parameters of the device-info
query: `buildingID` first, as the keys are sorted. -/
theorem Encode_device_query (deviceId buildingId : Bytes) :
    Values.Encode [(lit "id", [deviceId]), (lit "buildingID", [buildingId])] =
      QueryEscape (lit "buildingID") ++ ch '=' ::
        (QueryEscape buildingId ++ ch '&' ::
          (QueryEscape (lit "id") ++ ch '=' :: QueryEscape deviceId)) := by
  have hsort : sortKeys [lit "id", lit "buildingID"] = [lit "buildingID", lit "id"] := by decide
  have hne : lit "id" ≠ lit "buildingID" := by decide
  have hb : QueryEscape (lit "buildingID") ≠ [] := by decide
  simp only [Values.Encode, List.map, hsort, List.foldl, mapGet, if_neg hne, if_true, ne_eq,
    not_true_eq_false, if_false, List.nil_append]
  simp [hb]

/-- The method `URL.String` writes the query after a `?`. -/
theorem String_with_query (u : URL) (query : Bytes) (hq : query ≠ []) :
    URL.String { u with RawQuery := query } =
      URL.String { u with RawQuery := [] } ++ ch '?' :: query := by
  simp [URL.String, hq]

/-- The device-info base URL parses into scheme, host and path, with no query. -/
theorem Parse_deviceInfoUrl :
    Parse deviceInfoUrl = .ok (URL.mk (lit "https") (lit "app.melcloud.com")
      (lit "/Mitsubishi.Wifi.Client/Device/Get") []) := by
  decide

/-- The query string that `GetDeviceInformation` writes. -/
theorem deviceQuery_eq (deviceId buildingId : Bytes) :
    Values.Encode [(lit "id", [deviceId]), (lit "buildingID", [buildingId])] =
      lit "buildingID=" ++ QueryEscape buildingId ++ lit "&id=" ++ QueryEscape deviceId := by
  rw [Encode_device_query]
  have h1 : QueryEscape (lit "buildingID") ++ [ch '='] = lit "buildingID=" := by decide
  have h2 : ch '&' :: (QueryEscape (lit "id") ++ [ch '=']) = lit "&id=" := by decide
  rw [← h1, ← h2]
  simp

/-- The URL that `GetDeviceInformation` builds (lines 90-98). -/
theorem deviceInformationURL_eq (deviceId buildingId : Bytes) :
    deviceInformationURL deviceId buildingId =
      .ok (URL.mk (lit "https") (lit "app.melcloud.com") (lit "/Mitsubishi.Wifi.Client/Device/Get")
        (lit "buildingID=" ++ QueryEscape buildingId ++ lit "&id=" ++ QueryEscape deviceId)) := by
  have hquery : (ParseQuery []).1 = [] := by simp [ParseQuery, parseQuery]
  have hne : lit "id" ≠ lit "buildingID" := by decide
  have hset : Values.Set (Values.Set [] (lit "id") deviceId) (lit "buildingID") buildingId =
      [(lit "id", [deviceId]), (lit "buildingID", [buildingId])] := by
    simp [Values.Set, mapSet, hne]
  simp only [deviceInformationURL, Parse_deviceInfoUrl, URL.Query, hquery, hset, deviceQuery_eq]

/-- Parsing the query string of the device-info URL gives the two parameters
back. -/
theorem ParseQuery_deviceQuery (deviceId buildingId : Bytes) :
    ParseQuery (lit "buildingID=" ++ QueryEscape buildingId ++ lit "&id=" ++ QueryEscape deviceId) =
      ([(lit "buildingID", [buildingId]), (lit "id", [deviceId])], none) := by
  have hne : lit "buildingID" ≠ lit "id" := by decide
  rw [← deviceQuery_eq, Encode_device_query, ParseQuery,
    parseQuery_encoded_pair _ _ _ _ _ (by decide),
    parseQuery_encoded_last _ _ _ _ (by decide)]
  simp [mapSet, mapGet, hne]

/-- C9: for every `deviceId` and `buildingId`, the URL that
`GetDeviceInformation` builds has the scheme, host and path of the fixed
device-info URL, and parsing its query string yields exactly two parameters,
`buildingID` decoding back to `buildingId` and `id` decoding back to
`deviceId`; written out, it is the fixed URL, `?` and the encoded query. -/
theorem deviceInformationURL_round_trip (deviceId buildingId : Bytes) :
    ∃ base u, Parse deviceInfoUrl = .ok base ∧ base.String = deviceInfoUrl ∧
      deviceInformationURL deviceId buildingId = .ok u ∧
      u.Scheme = base.Scheme ∧ u.Host = base.Host ∧ u.Path = base.Path ∧
      ParseQuery u.RawQuery =
        ([(lit "buildingID", [buildingId]), (lit "id", [deviceId])], none) ∧
      u.Query.Get (lit "id") = deviceId ∧ u.Query.Get (lit "buildingID") = buildingId ∧
      u.String = deviceInfoUrl ++ ch '?' :: u.RawQuery := by
  have hstr : URL.String (URL.mk (lit "https") (lit "app.melcloud.com")
      (lit "/Mitsubishi.Wifi.Client/Device/Get") []) = deviceInfoUrl := by decide
  have hne : lit "buildingID" ≠ lit "id" := by decide
  have hparse := ParseQuery_deviceQuery deviceId buildingId
  have hraw : lit "buildingID=" ++ QueryEscape buildingId ++ lit "&id=" ++ QueryEscape deviceId
      ≠ [] := by
    have hb : lit "buildingID=" ≠ [] := by decide
    simp [hb]
  refine ⟨_, _, Parse_deviceInfoUrl, hstr, deviceInformationURL_eq deviceId buildingId,
    rfl, rfl, rfl, hparse, ?_, ?_, ?_⟩
  · show Values.Get (ParseQuery _).1 _ = _
    rw [hparse]
    simp [Values.Get, mapGet, hne]
  · show Values.Get (ParseQuery _).1 _ = _
    rw [hparse]
    simp [Values.Get, mapGet]
  · rw [← hstr]
    exact String_with_query (URL.mk (lit "https") (lit "app.melcloud.com")
      (lit "/Mitsubishi.Wifi.Client/Device/Get") []) _ hraw

/-- The example of the specification: `deviceId = "42"` and `buildingId = "7"`
give the query `buildingID=7&id=42`, which parses back to `7` and `42`. -/
theorem deviceInformationURL_example :
    (deviceInformationURL (lit "42") (lit "7")).map (fun u => u.RawQuery) =
        .ok (lit "buildingID=7&id=42") ∧
      ParseQuery (lit "buildingID=7&id=42") =
        ([(lit "buildingID", [lit "7"]), (lit "id", [lit "42"])], none) := by
  have h : lit "buildingID=" ++ QueryEscape (lit "7") ++ lit "&id=" ++ QueryEscape (lit "42") =
      lit "buildingID=7&id=42" := by decide
  constructor
  · rw [deviceInformationURL_eq, ← h]; rfl
  · rw [← h]; exact ParseQuery_deviceQuery (lit "42") (lit "7")

/-- Reserved bytes, a space and a non-ASCII character in `deviceId` are escaped
in the query and come back unchanged. -/
theorem deviceInformationURL_example_escaped :
    (deviceInformationURL (lit "4 2&é=%+") (lit "7")).map (fun u => u.RawQuery) =
        .ok (lit "buildingID=7&id=4+2%26%C3%A9%3D%25%2B") ∧
      ParseQuery (lit "buildingID=7&id=4+2%26%C3%A9%3D%25%2B") =
        ([(lit "buildingID", [lit "7"]), (lit "id", [lit "4 2&é=%+"])], none) := by
  have h : lit "buildingID=" ++ QueryEscape (lit "7") ++ lit "&id=" ++
      QueryEscape (lit "4 2&é=%+") = lit "buildingID=7&id=4+2%26%C3%A9%3D%25%2B" := by decide
  constructor
  · rw [deviceInformationURL_eq, ← h]; rfl
  · rw [← h]; exact ParseQuery_deviceQuery (lit "4 2&é=%+") (lit "7")

end Melcloud
